import Mathlib

/-!
Verification of the ABI codec in `packages/fuels-core/src/json_abi.rs`.

The file shallowly embeds the orchestrator `ABIParser` (`encode`,
`encode_with_function_selector`, `parse_tokens`, `decode`) from the source,
together with the collaborator components it drives (type resolver, value
tokenizer, encoder, decoder, selector builder, sha256 utility).  The
collaborators live outside the provided source tree, so they are modelled
from the specification; each such definition carries a doc comment saying
so.  Machine integers are `Nat` with explicit reductions, byte strings are
`List Nat`, Rust `Result` is `Except`, and a Rust panic (`unwrap` /
`expect`) is a dedicated outcome constructor so that panicking and
returning an error stay distinguishable.
-/

namespace FuelsAbi

/-! ## SHA-256 over byte lists

Modelled from the spec: the repository's `first_four_bytes_of_sha256_hash`
utility (not under the provided sources) hashes the selector signature with
the standard SHA-256 "cryptographic hash (256-bit digest)".  This is a
direct executable implementation of FIPS 180-4 SHA-256 on `Nat` bytes. -/

def w32 : Nat := 4294967296

def rotr (n x : Nat) : Nat := ((x >>> n) ||| (x <<< (32 - n))) % w32

def bigSigma0 (x : Nat) : Nat := (rotr 2 x) ^^^ (rotr 13 x) ^^^ (rotr 22 x)

def bigSigma1 (x : Nat) : Nat := (rotr 6 x) ^^^ (rotr 11 x) ^^^ (rotr 25 x)

def smallSigma0 (x : Nat) : Nat := (rotr 7 x) ^^^ (rotr 18 x) ^^^ (x >>> 3)

def smallSigma1 (x : Nat) : Nat := (rotr 17 x) ^^^ (rotr 19 x) ^^^ (x >>> 10)

def shaK : List Nat :=
  [1116352408, 1899447441, 3049323471, 3921009573, 961987163, 1508970993,
   2453635748, 2870763221, 3624381080, 310598401, 607225278, 1426881987,
   1925078388, 2162078206, 2614888103, 3248222580, 3835390401, 4022224774,
   264347078, 604807628, 770255983, 1249150122, 1555081692, 1996064986,
   2554220882, 2821834349, 2952996808, 3210313671, 3336571891, 3584528711,
   113926993, 338241895, 666307205, 773529912, 1294757372, 1396182291,
   1695183700, 1986661051, 2177026350, 2456956037, 2730485921, 2820302411,
   3259730800, 3345764771, 3516065817, 3600352804, 4094571909, 275423344,
   430227734, 506948616, 659060556, 883997877, 958139571, 1322822218,
   1537002063, 1747873779, 1955562222, 2024104815, 2227730452, 2361852424,
   2428436474, 2756734187, 3204031479, 3329325298]

def shaH0 : List Nat :=
  [1779033703, 3144134277, 1013904242, 2773480762, 1359893119,
   2600822924, 528734635, 1541459225]

/-- `count` big-endian bytes of `n` (most significant first). -/
def bytesBE (count n : Nat) : List Nat :=
  match count with
  | 0 => []
  | k + 1 => bytesBE k (n / 256) ++ [n % 256]

def padMsg (msg : List Nat) : List Nat :=
  let len := msg.length
  let z := (64 + 56 - ((len + 1) % 64)) % 64
  msg ++ [0x80] ++ List.replicate z 0 ++ bytesBE 8 (8 * len)

def bytesToWord (bs : List Nat) : Nat := bs.foldl (fun acc b => acc * 256 + b) 0

def toWordsAux : Nat → List Nat → List Nat
  | 0, _ => []
  | _, [] => []
  | fuel + 1, l => bytesToWord (l.take 4) :: toWordsAux fuel (l.drop 4)

def toWords (l : List Nat) : List Nat := toWordsAux l.length l

def chunksAux : Nat → List Nat → List (List Nat)
  | 0, _ => []
  | _, [] => []
  | fuel + 1, l => l.take 16 :: chunksAux fuel (l.drop 16)

def chunks16 (l : List Nat) : List (List Nat) := chunksAux l.length l

def extendW : Nat → List Nat → List Nat
  | 0, w => w
  | t + 1, w =>
    let n := w.length
    let wt := (smallSigma1 (w.getD (n - 2) 0) + w.getD (n - 7) 0 +
               smallSigma0 (w.getD (n - 15) 0) + w.getD (n - 16) 0) % w32
    extendW t (w ++ [wt])

def shaStep (st : List Nat) (kw : Nat × Nat) : List Nat :=
  match st with
  | [a, b, c, d, e, f, g, h] =>
    let t1 := (h + bigSigma1 e + ((e &&& f) ^^^ ((w32 - 1 - e) &&& g)) + kw.1 + kw.2) % w32
    let t2 := (bigSigma0 a + ((a &&& b) ^^^ (a &&& c) ^^^ (b &&& c))) % w32
    [(t1 + t2) % w32, a, b, c, (d + t1) % w32, e, f, g]
  | other => other

def processBlock (h : List Nat) (block : List Nat) : List Nat :=
  let w := extendW 48 block
  let st := (shaK.zip w).foldl shaStep h
  (h.zip st).map (fun p => (p.1 + p.2) % w32)

def sha256 (msg : List Nat) : List Nat :=
  let blocks := chunks16 (toWords (padMsg msg))
  let hh := blocks.foldl processBlock shaH0
  hh.foldr (fun wrd acc => bytesBE 4 wrd ++ acc) []

/-- The bytes of an ASCII string (selector signatures are ASCII). -/
def strBytes (s : String) : List Nat := s.data.map Char.toNat

/-! ## Hex rendering (`hex::encode`) -/

def hexDigit (n : Nat) : Char := if n < 10 then Char.ofNat (48 + n) else Char.ofNat (87 + n)

/-- Lowercase hex string of a byte list, two digits per byte, as `hex::encode`. -/
def hexEncode (bs : List Nat) : String :=
  String.mk (bs.foldr (fun b acc => hexDigit (b / 16) :: hexDigit (b % 16) :: acc) [])

/-! ## Schema data model (`fuels_types::ProgramABI`)

Modelled from the spec: the schema types themselves (`ProgramABI`,
`TypeDeclaration`, the `TypeApplication` references) are declared in the
`fuels-types` crate, which is not under the provided sources.  §3 of the
spec describes them: a schema is a mapping from `type_id` to
`TypeDeclaration` plus an ordered list of function entries; JSON transport
of that shape is an external collaborator (§6), so the embedding starts
from the in-memory shape. -/

/-- A reference to a type by id, optionally carrying type arguments that
substitute the target declaration's generic parameters. -/
inductive TypeApplication where
  | mk (name : String) (type_id : Nat) (type_arguments : Option (List TypeApplication)) :
      TypeApplication

def TypeApplication.name : TypeApplication → String
  | .mk n _ _ => n

def TypeApplication.type_id : TypeApplication → Nat
  | .mk _ i _ => i

def TypeApplication.type_arguments : TypeApplication → Option (List TypeApplication)
  | .mk _ _ a => a

structure TypeDeclaration where
  type_id : Nat
  type_field : String
  components : Option (List TypeApplication)
  type_parameters : Option (List Nat)

structure ABIFunction where
  inputs : List TypeApplication
  name : String
  output : TypeApplication

structure ProgramABI where
  types : List TypeDeclaration
  functions : List ABIFunction

/-- `Abigen::get_types`: the id-indexed view of the schema's declarations.
Modelled from the spec: the Rust helper builds a `HashMap` keyed by
`type_id`; lookups go through `getType` below. -/
def Abigen.get_types (abi : ProgramABI) : List TypeDeclaration := abi.types

/-- Lookup of a declaration by type id (first match, ids are unique per §3). -/
def getType (types : List TypeDeclaration) (id : Nat) : Option TypeDeclaration :=
  types.find? (fun d => d.type_id == id)

/-! ## Concrete types and value tokens -/

/-- Modelled from the spec: `ParamType` (the resolved `ConcreteType` of §3)
lives in `fuels-types`, outside the provided sources.  One of `Unit`,
`Bool`, the unsigned widths, `Byte`, `B256`, `Array`, fixed-length
`String`, `Tuple`, `Struct` (ordered named fields) and `Enum` (ordered
named variants). -/
inductive ParamType where
  | Unit : ParamType
  | Bool : ParamType
  | U8 : ParamType
  | U16 : ParamType
  | U32 : ParamType
  | U64 : ParamType
  | Byte : ParamType
  | B256 : ParamType
  | Array : ParamType → Nat → ParamType
  | String : Nat → ParamType
  | Tuple : List ParamType → ParamType
  | Struct : List (String × ParamType) → ParamType
  | Enum : List (String × ParamType) → ParamType

/-- Modelled from the spec: `Token` (the `ValueToken` of §3) lives in
`fuels-core`'s tokenizer/encoder modules, outside the provided sources.
It mirrors `ParamType` shape for shape; `String` carries the data together
with the declared length, `Enum` the zero-based discriminant and the
active variant's payload. -/
inductive Token where
  | Unit : Token
  | Bool : Bool → Token
  | U8 : Nat → Token
  | U16 : Nat → Token
  | U32 : Nat → Token
  | U64 : Nat → Token
  | Byte : Nat → Token
  | B256 : List Nat → Token
  | Array : List Token → Token
  | String : String → Nat → Token
  | Tuple : List Token → Token
  | Struct : List Token → Token
  | Enum : Nat → Token → Token

/-- The error kinds surfaced to callers (§7), together with `InvalidData`,
the catch-all constructor the orchestrator in `json_abi.rs` itself uses. -/
inductive Error where
  | InvalidData : String → Error
  | FunctionNotFound : String → Error
  | OutputTypeMissing : Error
  | UnknownType : Nat → Error
  | GenericArityMismatch : Error
  | ArityMismatch : Nat → Nat → Error
  | IntegerOutOfRange : Error
  | InvalidHex : Error
  | NonAsciiCharacter : Error
  | StringLengthMismatch : Nat → Nat → Error
  | InsufficientBytes : Error
deriving DecidableEq

/-- Outcome of running a Rust function that may return `Ok`, return `Err`,
or panic (`unwrap` / `expect`).  A panic carries the panic message; keeping
it separate from `err` is what lets theorems distinguish "returns an error
result" from "panics". -/
inductive ExecResult (α : Type) where
  | ok : α → ExecResult α
  | err : Error → ExecResult α
  | panicked : String → ExecResult α

instance {α : Type} [DecidableEq α] : DecidableEq (ExecResult α) := fun a b =>
  match a, b with
  | .ok x, .ok y =>
    if h : x = y then .isTrue (by rw [h]) else .isFalse (by intro hc; cases hc; exact h rfl)
  | .err x, .err y =>
    if h : x = y then .isTrue (by rw [h]) else .isFalse (by intro hc; cases hc; exact h rfl)
  | .panicked x, .panicked y =>
    if h : x = y then .isTrue (by rw [h]) else .isFalse (by intro hc; cases hc; exact h rfl)
  | .ok _, .err _ => .isFalse (by intro hc; cases hc)
  | .ok _, .panicked _ => .isFalse (by intro hc; cases hc)
  | .err _, .ok _ => .isFalse (by intro hc; cases hc)
  | .err _, .panicked _ => .isFalse (by intro hc; cases hc)
  | .panicked _, .ok _ => .isFalse (by intro hc; cases hc)
  | .panicked _, .err _ => .isFalse (by intro hc; cases hc)

/-- Whether the outcome is a returned error result (not a panic). -/
def ExecResult.isErr {α : Type} : ExecResult α → Bool
  | .err _ => true
  | _ => false

/-! ## Literal-string utilities for the tokenizer -/

def isSpaceChar (c : Char) : Bool := c == ' '

def trimChars (l : List Char) : List Char :=
  ((l.dropWhile isSpaceChar).reverse.dropWhile isSpaceChar).reverse

/-- Balanced-delimiter splitting (§4.3): a comma at bracket/paren nesting
depth 0 separates regions; nested commas do not. -/
def splitTopAux : Nat → List Char → List (List Char) → List Char → List (List Char)
  | _, cur, acc, [] => acc ++ [cur]
  | depth, cur, acc, c :: rest =>
    if c == '(' || c == '[' then splitTopAux (depth + 1) (cur ++ [c]) acc rest
    else if c == ')' || c == ']' then splitTopAux (depth - 1) (cur ++ [c]) acc rest
    else if c == ',' && depth == 0 then splitTopAux depth [] (acc ++ [cur]) rest
    else splitTopAux depth (cur ++ [c]) acc rest

def splitTopLevel (l : List Char) : List (List Char) :=
  if (trimChars l).isEmpty then [] else (splitTopAux 0 [] [] l).map trimChars

/-- Strip a single pair of enclosing brackets, if present. -/
def stripBrackets (opening closing : Char) (l : List Char) : Option (List Char) :=
  match l with
  | [] => none
  | c :: rest =>
    if c == opening && rest.getLast? == some closing then some rest.dropLast else none

def digitsToNat (l : List Char) : Nat := l.foldl (fun acc c => acc * 10 + (c.toNat - 48)) 0

def parseNatLit (l : List Char) : Option Nat :=
  if !l.isEmpty && l.all Char.isDigit then some (digitsToNat l) else none

def isHexDigitChar (c : Char) : Bool :=
  c.isDigit || ('a' ≤ c && c ≤ 'f') || ('A' ≤ c && c ≤ 'F')

def hexVal (c : Char) : Nat :=
  if c.isDigit then c.toNat - 48 else if c ≤ 'F' then c.toNat - 55 else c.toNat - 87

def hexPairsToBytes : List Char → List Nat
  | a :: b :: rest => (hexVal a * 16 + hexVal b) :: hexPairsToBytes rest
  | _ => []

/-! ## Value Tokenizer

Modelled from the spec: `Tokenizer::tokenize` (§4.3) lives outside the
provided sources.  A type-directed recursive-descent parse of the literal:
integers width-checked (`IntegerOutOfRange`), `true`/`false` booleans,
64-hex-character `b256` values (`InvalidHex` otherwise), bracketed
comma-lists for arrays (`ArityMismatch` unless exactly `N` elements),
parenthesized comma-lists for tuples/structs (positional,
`ArityMismatch` on count mismatch), bare ASCII text for fixed strings
(`NonAsciiCharacter`, then `StringLengthMismatch` reporting actual vs.
expected).  Enum literal handling is schema-driven and underdetermined by
the spec (§9 open question); it is modelled as a parenthesized pair
`(index, payload)` selecting the zero-based variant whose payload literal
is tokenized against that variant's type, matching the reference scenario
of §8.  Recursion is fuelled; the fuel exceeds the literal's length, so a
well-formed parse never exhausts it. -/

def tokenizeUInt (maxVal : Nat) (mk : Nat → Token) (lit : List Char) : Except Error Token :=
  match parseNatLit lit with
  | none => .error (.InvalidData "invalid integer literal")
  | some n => if n ≤ maxVal then .ok (mk n) else .error .IntegerOutOfRange

def tokenizeB256 (lit : List Char) : Except Error Token :=
  let hexs := if lit.take 2 = ['0', 'x'] then lit.drop 2 else lit
  if hexs.length == 64 && hexs.all isHexDigitChar then .ok (.B256 (hexPairsToBytes hexs))
  else .error .InvalidHex

mutual

def tokenizeF : Nat → ParamType → List Char → Except Error Token
  | 0, _, _ => .error (.InvalidData "recursion limit reached")
  | fuel + 1, t, lit =>
    match t with
    | .Unit => .ok .Unit
    | .Bool =>
      if lit = "true".data then .ok (.Bool true)
      else if lit = "false".data then .ok (.Bool false)
      else .error (.InvalidData "invalid bool literal")
    | .U8 => tokenizeUInt 255 Token.U8 lit
    | .U16 => tokenizeUInt 65535 Token.U16 lit
    | .U32 => tokenizeUInt 4294967295 Token.U32 lit
    | .U64 => tokenizeUInt 18446744073709551615 Token.U64 lit
    | .Byte => tokenizeUInt 255 Token.Byte lit
    | .B256 => tokenizeB256 lit
    | .String n =>
      if !(lit.all (fun c => c.toNat < 128)) then .error .NonAsciiCharacter
      else if lit.length ≠ n then .error (.StringLengthMismatch lit.length n)
      else .ok (.String (String.mk lit) n)
    | .Array inner n =>
      match stripBrackets '[' ']' lit with
      | none => .error (.InvalidData "expected array literal")
      | some body =>
        let pieces := splitTopLevel body
        if pieces.length ≠ n then .error (.ArityMismatch n pieces.length)
        else
          match tokenizeSeq fuel (List.replicate n inner) pieces with
          | .error e => .error e
          | .ok toks => .ok (.Array toks)
    | .Tuple ts =>
      match stripBrackets '(' ')' lit with
      | none => .error (.InvalidData "expected tuple literal")
      | some body =>
        let pieces := splitTopLevel body
        if pieces.length ≠ ts.length then .error (.ArityMismatch ts.length pieces.length)
        else
          match tokenizeSeq fuel ts pieces with
          | .error e => .error e
          | .ok toks => .ok (.Tuple toks)
    | .Struct fields =>
      match stripBrackets '(' ')' lit with
      | none => .error (.InvalidData "expected struct literal")
      | some body =>
        let pieces := splitTopLevel body
        if pieces.length ≠ fields.length then .error (.ArityMismatch fields.length pieces.length)
        else
          match tokenizeSeq fuel (fields.map Prod.snd) pieces with
          | .error e => .error e
          | .ok toks => .ok (.Struct toks)
    | .Enum variants =>
      match stripBrackets '(' ')' lit with
      | none => .error (.InvalidData "expected enum literal")
      | some body =>
        match splitTopLevel body with
        | [d, payload] =>
          match parseNatLit d with
          | none => .error (.InvalidData "invalid enum discriminant")
          | some idx =>
            if idx < variants.length then
              match tokenizeF fuel (variants.getD idx ("", .Unit)).2 payload with
              | .error e => .error e
              | .ok tok => .ok (.Enum idx tok)
            else .error (.InvalidData "enum discriminant out of range")
        | _ => .error (.InvalidData "expected enum literal")

def tokenizeSeq : Nat → List ParamType → List (List Char) → Except Error (List Token)
  | 0, _, _ => .error (.InvalidData "recursion limit reached")
  | _ + 1, [], _ => .ok []
  | _ + 1, _ :: _, [] => .ok []
  | fuel + 1, t :: ts, p :: ps =>
    match tokenizeF fuel t p with
    | .error e => .error e
    | .ok tok =>
      match tokenizeSeq fuel ts ps with
      | .error e => .error e
      | .ok toks => .ok (tok :: toks)

end

def Tokenizer.tokenize (param : ParamType) (value : String) : Except Error Token :=
  tokenizeF (value.length + 64) param (trimChars value.data)

/-! ## Encoder

Modelled from the spec: `ABIEncoder::encode` (§4.4), outside the provided
sources.  Word size 8 bytes, scalars one right-justified big-endian word
each, `B256` its raw 32 bytes, fixed strings their ASCII bytes zero-padded
to the next multiple of 8, composites the concatenation of their children,
enums an 8-byte discriminant word followed by the active payload's
encoding. -/

mutual

def ABIEncoder.encode_token : Token → List Nat
  | .Unit => []
  | .Bool b => bytesBE 8 (if b then 1 else 0)
  | .U8 n => bytesBE 8 n
  | .U16 n => bytesBE 8 n
  | .U32 n => bytesBE 8 n
  | .U64 n => bytesBE 8 n
  | .Byte n => bytesBE 8 n
  | .B256 bs => bs
  | .String data _ => strBytes data ++ List.replicate ((8 - data.length % 8) % 8) 0
  | .Array ts => ABIEncoder.encode_tokens ts
  | .Tuple ts => ABIEncoder.encode_tokens ts
  | .Struct ts => ABIEncoder.encode_tokens ts
  | .Enum d payload => bytesBE 8 d ++ ABIEncoder.encode_token payload

def ABIEncoder.encode_tokens : List Token → List Nat
  | [] => []
  | t :: ts => ABIEncoder.encode_token t ++ ABIEncoder.encode_tokens ts

end

def ABIEncoder.encode (tokens : List Token) : List Nat := ABIEncoder.encode_tokens tokens

/-! ## Decoder

Modelled from the spec: `ABIDecoder::decode` (§4.5), outside the provided
sources.  Mirrors the encoder in reverse with a left-to-right cursor,
failing with `InsufficientBytes` when a required read exceeds the
remaining length; fuelled recursion stands in for the defensive
recursion cap of §5. -/

def readWord (bs : List Nat) : Except Error (Nat × List Nat) :=
  if bs.length < 8 then .error .InsufficientBytes
  else .ok (bytesToWord (bs.take 8), bs.drop 8)

mutual

def decodeParamF : Nat → ParamType → List Nat → Except Error (Token × List Nat)
  | 0, _, _ => .error (.InvalidData "recursion limit reached")
  | fuel + 1, t, bs =>
    match t with
    | .Unit => .ok (.Unit, bs)
    | .Bool =>
      match readWord bs with
      | .error e => .error e
      | .ok (w, rest) => .ok (.Bool (w % 256 != 0), rest)
    | .U8 =>
      match readWord bs with
      | .error e => .error e
      | .ok (w, rest) => .ok (.U8 (w % 256), rest)
    | .U16 =>
      match readWord bs with
      | .error e => .error e
      | .ok (w, rest) => .ok (.U16 (w % 65536), rest)
    | .U32 =>
      match readWord bs with
      | .error e => .error e
      | .ok (w, rest) => .ok (.U32 (w % w32), rest)
    | .U64 =>
      match readWord bs with
      | .error e => .error e
      | .ok (w, rest) => .ok (.U64 w, rest)
    | .Byte =>
      match readWord bs with
      | .error e => .error e
      | .ok (w, rest) => .ok (.Byte (w % 256), rest)
    | .B256 =>
      if bs.length < 32 then .error .InsufficientBytes
      else .ok (.B256 (bs.take 32), bs.drop 32)
    | .String n =>
      let padded := 8 * ((n + 7) / 8)
      if bs.length < padded then .error .InsufficientBytes
      else .ok (.String (String.mk ((bs.take n).map Char.ofNat)) n, bs.drop padded)
    | .Array inner n =>
      match decodeSeqF fuel (List.replicate n inner) bs with
      | .error e => .error e
      | .ok (toks, rest) => .ok (.Array toks, rest)
    | .Tuple ts =>
      match decodeSeqF fuel ts bs with
      | .error e => .error e
      | .ok (toks, rest) => .ok (.Tuple toks, rest)
    | .Struct fields =>
      match decodeSeqF fuel (fields.map Prod.snd) bs with
      | .error e => .error e
      | .ok (toks, rest) => .ok (.Struct toks, rest)
    | .Enum variants =>
      match readWord bs with
      | .error e => .error e
      | .ok (d, rest) =>
        if d < variants.length then
          match decodeParamF fuel (variants.getD d ("", .Unit)).2 rest with
          | .error e => .error e
          | .ok (payload, rest2) => .ok (.Enum d payload, rest2)
        else .error (.InvalidData "enum discriminant out of range")

def decodeSeqF : Nat → List ParamType → List Nat → Except Error (List Token × List Nat)
  | 0, _, _ => .error (.InvalidData "recursion limit reached")
  | _ + 1, [], bs => .ok ([], bs)
  | fuel + 1, t :: ts, bs =>
    match decodeParamF fuel t bs with
    | .error e => .error e
    | .ok (tok, rest) =>
      match decodeSeqF fuel ts rest with
      | .error e => .error e
      | .ok (toks, rest2) => .ok (tok :: toks, rest2)

end

def ABIDecoder.decode (params : List ParamType) (data : List Nat) : Except Error (List Token) :=
  match decodeSeqF (data.length + 64) params data with
  | .error e => .error e
  | .ok (toks, _) => .ok toks

/-! ## Type Resolver

Modelled from the spec: `ParamType::from_type_declaration` (§4.1), outside
the provided sources.  Dispatches on the declaration's `type_name` pattern
(`UnknownType` for an absent id), substitutes generic parameters
positionally (`GenericArityMismatch` on count mismatch), and recurses into
components; fuelled recursion stands in for the defensive cap of §5 on a
(invalid) cyclic schema. -/

def parseStrLen (s : String) : Option Nat :=
  let l := s.data
  if l.take 4 = "str[".data && l.getLast? == some ']' then parseNatLit ((l.drop 4).dropLast)
  else none

def parseArrayLen (s : String) : Option Nat :=
  let l := s.data
  if l.head? == some '[' && l.getLast? == some ']' then
    parseNatLit (trimChars (((l.drop 1).dropLast.dropWhile (fun c => !(c == ';'))).drop 1))
  else none

def startsWithStr (p s : String) : Bool := s.data.take p.data.length == p.data

mutual

def resolveAppF : Nat → List TypeDeclaration → List (Nat × TypeApplication) → TypeApplication →
    Except Error ParamType
  | 0, _, _, _ => .error (.InvalidData "recursion limit reached")
  | fuel + 1, types, subst, app =>
    match subst.lookup app.type_id with
    | some replacement => resolveAppF fuel types [] replacement
    | none =>
      match getType types app.type_id with
      | none => .error (.UnknownType app.type_id)
      | some decl =>
        match decl.type_parameters with
        | some ps =>
          if ps.isEmpty then resolveDeclF fuel types subst decl
          else
            match app.type_arguments with
            | none => .error .GenericArityMismatch
            | some args =>
              if args.length = ps.length then resolveDeclF fuel types (ps.zip args) decl
              else .error .GenericArityMismatch
        | none => resolveDeclF fuel types subst decl

def resolveDeclF : Nat → List TypeDeclaration → List (Nat × TypeApplication) → TypeDeclaration →
    Except Error ParamType
  | 0, _, _, _ => .error (.InvalidData "recursion limit reached")
  | fuel + 1, types, subst, decl =>
    if decl.type_field = "()" then .ok .Unit
    else if decl.type_field = "bool" then .ok .Bool
    else if decl.type_field = "u8" then .ok .U8
    else if decl.type_field = "u16" then .ok .U16
    else if decl.type_field = "u32" then .ok .U32
    else if decl.type_field = "u64" then .ok .U64
    else if decl.type_field = "byte" then .ok .Byte
    else if decl.type_field = "b256" then .ok .B256
    else
      match parseStrLen decl.type_field with
      | some n => .ok (.String n)
      | none =>
        match parseArrayLen decl.type_field with
        | some n =>
          match decl.components.getD [] with
          | [elem] =>
            match resolveAppF fuel types subst elem with
            | .error e => .error e
            | .ok inner => .ok (.Array inner n)
          | _ => .error (.InvalidData "array declaration must have exactly one component")
        | none =>
          if startsWithStr "(" decl.type_field then
            match resolveCompsF fuel types subst (decl.components.getD []) with
            | .error e => .error e
            | .ok comps => .ok (.Tuple (comps.map Prod.snd))
          else if startsWithStr "struct " decl.type_field then
            match resolveCompsF fuel types subst (decl.components.getD []) with
            | .error e => .error e
            | .ok comps => .ok (.Struct comps)
          else if startsWithStr "enum " decl.type_field then
            match resolveCompsF fuel types subst (decl.components.getD []) with
            | .error e => .error e
            | .ok comps => .ok (.Enum comps)
          else .error (.InvalidData "unrecognized type declaration")

def resolveCompsF : Nat → List TypeDeclaration → List (Nat × TypeApplication) →
    List TypeApplication → Except Error (List (String × ParamType))
  | 0, _, _, _ => .error (.InvalidData "recursion limit reached")
  | _ + 1, _, _, [] => .ok []
  | fuel + 1, types, subst, c :: cs =>
    match resolveAppF fuel types subst c with
    | .error e => .error e
    | .ok t =>
      match resolveCompsF fuel types subst cs with
      | .error e => .error e
      | .ok rest => .ok ((c.name, t) :: rest)

end

def ParamType.from_type_declaration (decl : TypeDeclaration) (types : List TypeDeclaration) :
    Except Error ParamType :=
  resolveDeclF 64 types [] decl

/-! ## Selector Builder

Modelled from the spec: `resolve_fn_selector` (§4.2), outside the provided
sources.  Canonical signature `name(` + comma-joined canonical type tags +
`)`:  primitives render as their literal names, `str[N]` for fixed
strings, an array as its inner tag and length in brackets, tuples
parenthesized, structs `s(...)` and enums `e(...)` with field/variant
names omitted.  The array tag uses the reference implementation's
`a[inner;N]` spelling, the one the source tests' expected selector hashes
pin down. -/

mutual

def paramTypeTag : ParamType → String
  | .Unit => "()"
  | .Bool => "bool"
  | .U8 => "u8"
  | .U16 => "u16"
  | .U32 => "u32"
  | .U64 => "u64"
  | .Byte => "byte"
  | .B256 => "b256"
  | .String n => "str[" ++ toString n ++ "]"
  | .Array inner n => "a[" ++ paramTypeTag inner ++ ";" ++ toString n ++ "]"
  | .Tuple ts => "(" ++ tagJoin ts ++ ")"
  | .Struct fields => "s(" ++ tagJoinNamed fields ++ ")"
  | .Enum variants => "e(" ++ tagJoinNamed variants ++ ")"

def tagJoin : List ParamType → String
  | [] => ""
  | [t] => paramTypeTag t
  | t :: ts => paramTypeTag t ++ "," ++ tagJoin ts

def tagJoinNamed : List (String × ParamType) → String
  | [] => ""
  | [(_, t)] => paramTypeTag t
  | (_, t) :: ts => paramTypeTag t ++ "," ++ tagJoinNamed ts

end

def tagOfInput (types : List TypeDeclaration) (app : TypeApplication) : String :=
  match resolveAppF 64 types [] app with
  | .ok t => paramTypeTag t
  | .error _ => ""

def tagJoinInputs : List TypeApplication → List TypeDeclaration → String
  | [], _ => ""
  | [i], types => tagOfInput types i
  | i :: is, types => tagOfInput types i ++ "," ++ tagJoinInputs is types

def resolve_fn_selector (entry : ABIFunction) (types : List TypeDeclaration) : String :=
  entry.name ++ "(" ++ tagJoinInputs entry.inputs types ++ ")"

/-- Modelled from the spec: `first_four_bytes_of_sha256_hash` — when
embedded in a call payload the 4 selector bytes occupy the low-order 4
bytes of an 8-byte word whose high 4 bytes are zero (§4.2). -/
def first_four_bytes_of_sha256_hash (s : String) : List Nat :=
  [0, 0, 0, 0] ++ (sha256 (strBytes s)).take 4

/-! ## The orchestrator: `ABIParser` from `json_abi.rs`

These definitions are translated from the provided source
`packages/fuels-core/src/json_abi.rs`.  The JSON deserialization step
(`serde_json::from_str`) is the external transport of §6, so the schema
arrives as an in-memory `ProgramABI`.  Rust's `&mut self` receiver is
explicit state passing: a call returns the new parser state alongside the
outcome, and `expect` / `unwrap` become the `panicked` outcome carrying
the panic message. -/

structure ABIParser where
  fn_selector : Option (List Nat)
deriving DecidableEq

def ABIParser.new : ABIParser := ⟨none⟩

/-- The body of `ABIParser::encode` lines 82‑90: pair each function input
with the caller's value by position (`Iterator::zip`, which drops the
longer side's tail), look the input's type id up in the schema
(`unwrap` — a panic when absent) and resolve it, short-circuiting on the
first resolution error exactly as `collect::<Result<_, _>>` does. -/
def paramsAndValues (types : List TypeDeclaration) :
    List (TypeApplication × String) → ExecResult (List (ParamType × String))
  | [] => .ok []
  | (prop, val) :: rest =>
    match getType types prop.type_id with
    | none => .panicked "called Option::unwrap on a None value"
    | some t =>
      match ParamType.from_type_declaration t types with
      | .error e => .err e
      | .ok p =>
        match paramsAndValues types rest with
        | .ok l => .ok ((p, val) :: l)
        | .err e => .err e
        | .panicked m => .panicked m

def parseTokensList : List (ParamType × String) → Except Error (List Token)
  | [] => .ok []
  | (p, v) :: rest =>
    match Tokenizer.tokenize p v with
    | .error e => .error e
    | .ok tok =>
      match parseTokensList rest with
      | .error e => .error e
      | .ok toks => .ok (tok :: toks)

/-- `ABIParser::parse_tokens`: tokenize each (type, literal) pair in
order, short-circuiting on the first tokenizer error.  Takes the parser by
shared reference in the source and never touches it. -/
def ABIParser.parse_tokens (_self : ABIParser) (params : List (ParamType × String)) :
    Except Error (List Token) :=
  parseTokensList params

/-- The post-lookup body of `ABIParser::encode`, with the list of inputs
actually paired against the values abstracted out (the source always
passes `entry.inputs`; abstracting it lets a theorem speak about which
inputs the pairing reaches).  Computes the selector from the full entry,
overwrites `fn_selector`, pairs `used_inputs` with the values, tokenizes,
encodes, and hex-renders. -/
def ABIParser.encode_using (_self : ABIParser) (abi : ProgramABI) (entry : ABIFunction)
    (used_inputs : List TypeApplication) (values : List String) : ABIParser × ExecResult String :=
  let types := Abigen.get_types abi
  let fn_selector := resolve_fn_selector entry types
  let self' : ABIParser := ⟨some (first_four_bytes_of_sha256_hash fn_selector)⟩
  match paramsAndValues types (used_inputs.zip values) with
  | .panicked m => (self', .panicked m)
  | .err e => (self', .err e)
  | .ok pairs =>
    match self'.parse_tokens pairs with
    | .error e => (self', .err e)
    | .ok tokens => (self', .ok (hexEncode (ABIEncoder.encode tokens)))

/-- `ABIParser::encode` (source lines 68‑95): find the entry by name —
`expect` panics with "No functions found" when absent — store the hashed
selector in `fn_selector`, then resolve, tokenize, encode and hex-render
the paired inputs and values. -/
def ABIParser.encode (self : ABIParser) (abi : ProgramABI) (fn_name : String)
    (values : List String) : ABIParser × ExecResult String :=
  match abi.functions.find? (fun e => e.name == fn_name) with
  | none => (self, .panicked "No functions found")
  | some entry => self.encode_using abi entry entry.inputs values

/-- `ABIParser::encode_with_function_selector` (source lines 136‑151):
run `encode`, then prefix the hex of the stored selector word. -/
def ABIParser.encode_with_function_selector (self : ABIParser) (abi : ProgramABI)
    (fn_name : String) (values : List String) : ABIParser × ExecResult String :=
  match self.encode abi fn_name values with
  | (self', .ok encoded_params) =>
    match self'.fn_selector with
    | none => (self', .panicked "Function selector not encoded")
    | some sel => (self', .ok (hexEncode sel ++ encoded_params))
  | other => other

/-- `ABIParser::decode` (source lines 197‑226): find the entry by name —
returning `Error::InvalidData` when absent — look up the output type id
(`expect` panics with "No output type" when absent), resolve it, and
decode the bytes against it.  Takes the parser by shared reference in the
source and never touches it. -/
def ABIParser.decode (_self : ABIParser) (abi : ProgramABI) (fn_name : String)
    (value : List Nat) : ExecResult (List Token) :=
  match abi.functions.find? (fun e => e.name == fn_name) with
  | none => .err (.InvalidData ("couldn\x27t find function name: " ++ fn_name))
  | some entry =>
    let types := Abigen.get_types abi
    match getType types entry.output.type_id with
    | none => .panicked "No output type"
    | some decl =>
      match ParamType.from_type_declaration decl types with
      | .error e => .err e
      | .ok params =>
        match ABIDecoder.decode [params] value with
        | .error e => .err e
        | .ok toks => .ok toks

/-- `ABIParser::decode_params`: decode data against explicitly given
types, no schema involved. -/
def ABIParser.decode_params (_self : ABIParser) (params : List ParamType) (data : List Nat) :
    ExecResult (List Token) :=
  match ABIDecoder.decode params data with
  | .error e => .err e
  | .ok toks => .ok toks

/-! ## Concrete schemas

In-memory transcriptions of the JSON fixtures embedded in the source
file's tests (the JSON deserialization itself is the external transport of
§6). -/

/-- The `takes_u32_returns_bool` schema of `simple_encode_and_decode`
(source lines 243‑277): `bool` is type 0, `u32` type 1, one function of
one `u32` input returning `bool`. -/
def simpleAbi : ProgramABI :=
  ⟨[⟨0, "bool", none, none⟩, ⟨1, "u32", none, none⟩],
   [⟨[.mk "only_argument" 1 none], "takes_u32_returns_bool", .mk "" 0 none⟩]⟩

/-- The `takes_nested_tuple` schema of `nested_tuple_encode_and_decode`
(source lines 1001‑1120): the input, type 2, is the triple of the pair
`(u64, bool)`, the struct `Person { name : str[4] }`, and the enum
`State { A, B, C }` whose three variants all carry unit payloads. -/
def nestedTupleAbi : ProgramABI :=
  ⟨[⟨0, "()", some [], none⟩,
    ⟨1, "(_, _)", some [.mk "__tuple_element" 7 none, .mk "__tuple_element" 3 none], none⟩,
    ⟨2, "(_, _, _)",
      some [.mk "__tuple_element" 1 none, .mk "__tuple_element" 6 none,
            .mk "__tuple_element" 4 none], none⟩,
    ⟨3, "bool", none, none⟩,
    ⟨4, "enum State", some [.mk "A" 0 none, .mk "B" 0 none, .mk "C" 0 none], none⟩,
    ⟨5, "str[4]", none, none⟩,
    ⟨6, "struct Person", some [.mk "name" 5 none], none⟩,
    ⟨7, "u64", none, none⟩],
   [⟨[.mk "input" 2 none], "takes_nested_tuple", .mk "" 0 none⟩]⟩

/-- The `takes_string` schema of `string_encode_and_decode` (source lines
596‑630): input `str[23]`, output `str[2]`. -/
def stringAbi : ProgramABI :=
  ⟨[⟨0, "str[2]", some [], none⟩, ⟨1, "str[23]", none, none⟩],
   [⟨[.mk "arg" 1 none], "takes_string", .mk "" 0 none⟩]⟩

/-- The `takes_string` schema of `strings_must_have_correct_length`
(source lines 1340‑1374): input `str[4]`, output `()`. -/
def str4Abi : ProgramABI :=
  ⟨[⟨0, "()", some [], none⟩, ⟨1, "str[4]", none, none⟩],
   [⟨[.mk "foo" 1 none], "takes_string", .mk "" 0 none⟩]⟩

/-- The function entry of `takes_struct_and_primitive` (source lines
776‑797): two inputs, a struct and a `u32`. -/
def structAndPrimEntry : ABIFunction :=
  ⟨[.mk "my_struct" 2 none, .mk "foo" 3 none], "takes_struct_and_primitive", .mk "" 0 none⟩

/-- The schema of `struct_and_primitive_encode_and_decode` (source lines
731‑799). -/
def structAndPrimAbi : ProgramABI :=
  ⟨[⟨0, "()", some [], none⟩, ⟨1, "bool", none, none⟩,
    ⟨2, "struct MyStruct", some [.mk "foo" 4 none, .mk "bar" 1 none], none⟩,
    ⟨3, "u32", none, none⟩, ⟨4, "u8", none, none⟩],
   [structAndPrimEntry]⟩

/-- A schema whose single function names output type id 9, which the type
list does not declare: the shape that exercises `decode`'s output-type
lookup failure. -/
def badOutputAbi : ProgramABI :=
  ⟨[⟨1, "u32", none, none⟩], [⟨[], "f", .mk "" 9 none⟩]⟩

/-! ## Helper lemmas -/

theorem sha256_abc_test_vector :
    sha256 (strBytes "abc") =
      [0xba, 0x78, 0x16, 0xbf, 0x8f, 0x01, 0xcf, 0xea, 0x41, 0x41, 0x40, 0xde, 0x5d, 0xae,
       0x22, 0x23, 0xb0, 0x03, 0x61, 0xa3, 0x96, 0x17, 0x7a, 0x9c, 0xb4, 0x10, 0xff, 0x61,
       0xf2, 0x00, 0x15, 0xad] := by
  decide

theorem encode_find_none (self : ABIParser) (abi : ProgramABI) (fn : String)
    (values : List String) (h : abi.functions.find? (fun e => e.name == fn) = none) :
    self.encode abi fn values = (self, .panicked "No functions found") := by
  unfold ABIParser.encode
  rw [h]

theorem encode_find_some (self : ABIParser) (abi : ProgramABI) (fn : String)
    (values : List String) (entry : ABIFunction)
    (h : abi.functions.find? (fun e => e.name == fn) = some entry) :
    self.encode abi fn values = self.encode_using abi entry entry.inputs values := by
  unfold ABIParser.encode
  rw [h]

theorem encode_using_fst (self : ABIParser) (abi : ProgramABI) (entry : ABIFunction)
    (used_inputs : List TypeApplication) (values : List String) :
    (self.encode_using abi entry used_inputs values).1 =
      ⟨some (first_four_bytes_of_sha256_hash
        (resolve_fn_selector entry (Abigen.get_types abi)))⟩ := by
  simp only [ABIParser.encode_using]
  split
  · rfl
  · rfl
  · split
    · rfl
    · rfl

theorem encode_using_zip_eq (self : ABIParser) (abi : ProgramABI) (entry : ABIFunction)
    (u1 u2 : List TypeApplication) (values : List String) (h : u1.zip values = u2.zip values) :
    self.encode_using abi entry u1 values = self.encode_using abi entry u2 values := by
  unfold ABIParser.encode_using
  rw [h]

theorem zip_take_of_length_le {α β : Type} (l1 : List α) (l2 : List β)
    (h : l2.length ≤ l1.length) : (l1.take l2.length).zip l2 = l1.zip l2 := by
  induction l2 generalizing l1 with
  | nil => simp
  | cons b bs ih =>
    cases l1 with
    | nil => simp at h
    | cons a as =>
      simp only [List.length_cons, List.take_succ_cons, List.zip_cons_cons]
      rw [ih as (Nat.le_of_succ_le_succ h)]

/-! ## The claims -/

/-- C1 (counterexample): on a function name absent from the schema,
`encode` does not return any error result — it panics with
"No functions found" — and `decode` returns an `InvalidData` error naming
the function, which is not a `FunctionNotFound` error.  This refutes the
claim that both operations return a `FunctionNotFound` error result
rather than panicking. -/
theorem missing_function_not_an_error_result :
    ((ABIParser.new.encode simpleAbi "missing_function" ["10"]).2).isErr = false ∧
    (ABIParser.new.encode simpleAbi "missing_function" ["10"]).2 =
      .panicked "No functions found" ∧
    ABIParser.new.decode simpleAbi "missing_function" [] =
      .err (.InvalidData "couldn\x27t find function name: missing_function") ∧
    Error.InvalidData "couldn\x27t find function name: missing_function" ≠
      Error.FunctionNotFound "missing_function" :=
  ⟨rfl, rfl, rfl, by decide⟩

/-- C1 (amended): for every schema, argument list, byte input and function
name that does not occur among the schema's function entries, `encode`
panics with the `expect` message "No functions found", while `decode`
returns an `InvalidData` error naming the function as a result value. -/
theorem encode_panics_decode_errs_on_missing_function (st : ABIParser) (abi : ProgramABI)
    (fn : String) (vals : List String) (bytes : List Nat)
    (h : abi.functions.find? (fun e => e.name == fn) = none) :
    (st.encode abi fn vals).2 = .panicked "No functions found" ∧
    st.decode abi fn bytes = .err (.InvalidData ("couldn\x27t find function name: " ++ fn)) := by
  constructor
  · rw [encode_find_none st abi fn vals h]
  · unfold ABIParser.decode
    rw [h]

/-- C1 (witness): the amended claim at the `takes_u32_returns_bool`
schema and the absent name "missing_function". -/
theorem encode_panics_decode_errs_on_missing_function_witness :
    (ABIParser.new.encode simpleAbi "missing_function" ["10"]).2 =
      .panicked "No functions found" ∧
    ABIParser.new.decode simpleAbi "missing_function" [] =
      .err (.InvalidData ("couldn\x27t find function name: " ++ "missing_function")) :=
  encode_panics_decode_errs_on_missing_function ABIParser.new simpleAbi "missing_function"
    ["10"] [] rfl

/-- C2 (counterexample): on a schema whose found function names an output
type id absent from the type list, `decode` does not return any error
result (in particular not `OutputTypeMissing`) — it panics with the
`expect` message "No output type". -/
theorem missing_output_type_not_an_error_result :
    (ABIParser.new.decode badOutputAbi "f" []).isErr = false ∧
    ABIParser.new.decode badOutputAbi "f" [] = .panicked "No output type" :=
  ⟨rfl, rfl⟩

/-- C2 (amended): for every schema, byte input and function name found in
the schema, if the type id named by that function's output property is
absent from the schema's type mapping then `decode` panics with
"No output type". -/
theorem decode_panics_on_missing_output_type (st : ABIParser) (abi : ProgramABI) (fn : String)
    (bytes : List Nat) (entry : ABIFunction)
    (h1 : abi.functions.find? (fun e => e.name == fn) = some entry)
    (h2 : getType (Abigen.get_types abi) entry.output.type_id = none) :
    st.decode abi fn bytes = .panicked "No output type" := by
  unfold ABIParser.decode
  rw [h1]
  simp only []
  rw [h2]

/-- C2 (witness): the amended claim at `badOutputAbi`, whose function `f`
declares output type id 9 while the schema only declares id 1. -/
theorem decode_panics_on_missing_output_type_witness :
    ABIParser.new.decode badOutputAbi "f" [] = .panicked "No output type" :=
  decode_panics_on_missing_output_type ABIParser.new badOutputAbi "f" [] ⟨[], "f", .mk "" 9 none⟩
    rfl rfl

/-- C3: for `takes_u32_returns_bool(u32)` with the literal "10", `encode`
yields the hex body `000000000000000a`, `encode_with_function_selector`
yields `000000006355e6ee000000000000000a`, and `decode` on the 8 zero
return bytes yields the single token `Bool false`. -/
theorem simple_u32_bool_encode_decode_values :
    (ABIParser.new.encode simpleAbi "takes_u32_returns_bool" ["10"]).2 =
      .ok "000000000000000a" ∧
    (ABIParser.new.encode_with_function_selector simpleAbi "takes_u32_returns_bool" ["10"]).2 =
      .ok "000000006355e6ee000000000000000a" ∧
    ABIParser.new.decode simpleAbi "takes_u32_returns_bool" [0, 0, 0, 0, 0, 0, 0, 0] =
      .ok [Token.Bool false] :=
  ⟨by decide, by decide, rfl⟩

set_option maxRecDepth 4000 in
/-- C4: for `takes_nested_tuple` with the literal
"((42, true), (John), (1, 0))", `encode_with_function_selector` yields
exactly the expected hex; the third tuple component is the single enum
`State`, whose literal `(1, 0)` selects zero-based variant 1 with unit
payload, and an enum token encodes as an 8-byte discriminant word
followed by its payload's encoding, the payload contributing zero bytes
when it is `Unit`. -/
theorem nested_tuple_encode_value :
    (ABIParser.new.encode_with_function_selector nestedTupleAbi "takes_nested_tuple"
        ["((42, true), (John), (1, 0))"]).2 =
      .ok "00000000ebb8d011000000000000002a00000000000000014a6f686e000000000000000000000001" ∧
    Tokenizer.tokenize (ParamType.Enum [("A", .Unit), ("B", .Unit), ("C", .Unit)]) "(1, 0)" =
      .ok (Token.Enum 1 Token.Unit) ∧
    (∀ d p, ABIEncoder.encode_token (Token.Enum d p) =
      bytesBE 8 d ++ ABIEncoder.encode_token p) ∧
    ABIEncoder.encode_token Token.Unit = [] :=
  ⟨by decide, rfl, fun _ _ => rfl, rfl⟩

/-- C5: for `takes_string(str[23])` with the 23-character literal
"This is a full sentence", `encode_with_function_selector` yields exactly
the expected hex; the fixed string encodes as its 23 ASCII bytes followed
by a single zero-padding byte up to the next multiple of 8. -/
theorem fixed_string_encode_value :
    (ABIParser.new.encode_with_function_selector stringAbi "takes_string"
        ["This is a full sentence"]).2 =
      .ok "00000000d56e76515468697320697320612066756c6c2073656e74656e636500" ∧
    ABIEncoder.encode_token (Token.String "This is a full sentence" 23) =
      strBytes "This is a full sentence" ++ [0] ∧
    (strBytes "This is a full sentence").length = 23 :=
  ⟨by decide, rfl, by decide⟩

/-- C6: whenever `encode` succeeds, `encode_with_function_selector` on the
same inputs returns the hex of the 8-byte selector word — high 4 bytes
zero, low 4 bytes the first 4 bytes of the SHA-256 hash of the found
function's canonical signature — concatenated with `encode`'s string. -/
theorem encode_with_selector_prefixes_hash (st st' : ABIParser) (abi : ProgramABI)
    (fn : String) (vals : List String) (s : String)
    (h : st.encode abi fn vals = (st', .ok s)) :
    ∃ entry, abi.functions.find? (fun e => e.name == fn) = some entry ∧
      st.encode_with_function_selector abi fn vals =
        (st', .ok (hexEncode ([0, 0, 0, 0] ++
          (sha256 (strBytes (resolve_fn_selector entry (Abigen.get_types abi)))).take 4)
          ++ s)) := by
  cases hf : abi.functions.find? (fun e => e.name == fn) with
  | none =>
    rw [encode_find_none st abi fn vals hf] at h
    exact absurd (congrArg Prod.snd h) (by simp)
  | some entry =>
    refine ⟨entry, rfl, ?_⟩
    have henc : st.encode abi fn vals = (st', .ok s) := h
    rw [encode_find_some st abi fn vals entry hf] at h
    have hst : st' = ⟨some (first_four_bytes_of_sha256_hash
        (resolve_fn_selector entry (Abigen.get_types abi)))⟩ := by
      have hfst := encode_using_fst st abi entry entry.inputs vals
      rw [h] at hfst
      exact hfst
    unfold ABIParser.encode_with_function_selector
    rw [henc, hst]
    rfl

/-- C6 (witness): the relation at the `takes_u32_returns_bool` scenario,
whose `encode` call succeeds with body `000000000000000a`. -/
theorem encode_with_selector_prefixes_hash_witness :
    ∃ entry,
      simpleAbi.functions.find? (fun e => e.name == "takes_u32_returns_bool") = some entry ∧
      ABIParser.new.encode_with_function_selector simpleAbi "takes_u32_returns_bool" ["10"] =
        (⟨some [0, 0, 0, 0, 0x63, 0x55, 0xe6, 0xee]⟩, .ok (hexEncode ([0, 0, 0, 0] ++
          (sha256 (strBytes (resolve_fn_selector entry (Abigen.get_types simpleAbi)))).take 4)
          ++ "000000000000000a")) :=
  encode_with_selector_prefixes_hash ABIParser.new ⟨some [0, 0, 0, 0, 0x63, 0x55, 0xe6, 0xee]⟩
    simpleAbi "takes_u32_returns_bool" ["10"] "000000000000000a" (by decide)

/-- C7 (counterexample): `encode` does mutate a field of the parser: the
fresh parser's `fn_selector` is `none`, and after one successful `encode`
call it holds the selector word bytes, observable by later calls.  This
refutes the claim that no field of the parser is mutated. -/
theorem encode_mutates_fn_selector_field :
    ABIParser.new.fn_selector = none ∧
    ((ABIParser.new.encode simpleAbi "takes_u32_returns_bool" ["10"]).1).fn_selector =
      some [0, 0, 0, 0, 0x63, 0x55, 0xe6, 0xee] :=
  ⟨rfl, by decide⟩

/-- C7 (amended): the codec has no observable state beyond the parser's
`fn_selector` field: the outcome of `encode` and the whole of `decode`
are independent of the starting parser state (and the schema, a plain
value, is never mutated), but `encode` on a found function overwrites
`fn_selector` with the selector word of that function's signature. -/
theorem encode_decode_state_independence (st1 st2 : ABIParser) (abi : ProgramABI)
    (fn : String) (vals : List String) (bytes : List Nat) (entry : ABIFunction)
    (h : abi.functions.find? (fun e => e.name == fn) = some entry) :
    (st1.encode abi fn vals).2 = (st2.encode abi fn vals).2 ∧
    st1.decode abi fn bytes = st2.decode abi fn bytes ∧
    (st1.encode abi fn vals).1 =
      ⟨some (first_four_bytes_of_sha256_hash
        (resolve_fn_selector entry (Abigen.get_types abi)))⟩ := by
  refine ⟨?_, rfl, ?_⟩
  · rw [encode_find_some st1 abi fn vals entry h, encode_find_some st2 abi fn vals entry h]
    rfl
  · rw [encode_find_some st1 abi fn vals entry h]
    exact encode_using_fst st1 abi entry entry.inputs vals

/-- C7 (witness): the amended claim at the `takes_u32_returns_bool`
scenario, with two distinct starting states. -/
theorem encode_decode_state_independence_witness :
    ((ABIParser.new.encode simpleAbi "takes_u32_returns_bool" ["10"]).2 =
      ((⟨some [1, 2, 3]⟩ : ABIParser).encode simpleAbi "takes_u32_returns_bool" ["10"]).2) ∧
    (ABIParser.new.decode simpleAbi "takes_u32_returns_bool" [0, 0, 0, 0, 0, 0, 0, 0] =
      (⟨some [1, 2, 3]⟩ : ABIParser).decode simpleAbi "takes_u32_returns_bool"
        [0, 0, 0, 0, 0, 0, 0, 0]) ∧
    (ABIParser.new.encode simpleAbi "takes_u32_returns_bool" ["10"]).1 =
      ⟨some (first_four_bytes_of_sha256_hash
        (resolve_fn_selector ⟨[.mk "only_argument" 1 none], "takes_u32_returns_bool",
          .mk "" 0 none⟩ (Abigen.get_types simpleAbi)))⟩ :=
  encode_decode_state_independence ABIParser.new ⟨some [1, 2, 3]⟩ simpleAbi
    "takes_u32_returns_bool" ["10"] [0, 0, 0, 0, 0, 0, 0, 0]
    ⟨[.mk "only_argument" 1 none], "takes_u32_returns_bool", .mk "" 0 none⟩ rfl

/-- C8: tokenizing the literal "fue" against `str[4]` fails with
`StringLengthMismatch` reporting actual length 3 and expected length 4,
and `encode` on the `takes_string(str[4])` schema with argument "fue"
returns that error as a result. -/
theorem string_length_mismatch_reported :
    Tokenizer.tokenize (ParamType.String 4) "fue" = .error (.StringLengthMismatch 3 4) ∧
    (ABIParser.new.encode str4Abi "takes_string" ["fue"]).2 =
      .err (.StringLengthMismatch 3 4) :=
  ⟨rfl, rfl⟩

/-- C9: selector computation and encoding are deterministic: the signature
and its hashed selector word are pure functions of the entry and schema,
and after a successful `encode` an identical second call — from the state
the first call left behind — returns the identical result string and
leaves the identical stored selector bytes. -/
theorem encode_twice_identical (st st' : ABIParser) (abi : ProgramABI) (fn : String)
    (vals : List String) (s : String) (h : st.encode abi fn vals = (st', .ok s)) :
    st'.encode abi fn vals = (st', .ok s) ∧
    (∀ entry types, first_four_bytes_of_sha256_hash (resolve_fn_selector entry types) =
      first_four_bytes_of_sha256_hash (resolve_fn_selector entry types)) := by
  refine ⟨?_, fun _ _ => rfl⟩
  cases hf : abi.functions.find? (fun e => e.name == fn) with
  | none =>
    rw [encode_find_none st abi fn vals hf] at h
    exact absurd (congrArg Prod.snd h) (by simp)
  | some entry =>
    rw [encode_find_some st' abi fn vals entry hf]
    rw [encode_find_some st abi fn vals entry hf] at h
    exact h

/-- C9 (witness): the second `encode` call of the
`takes_u32_returns_bool` scenario repeats the first call's output. -/
theorem encode_twice_identical_witness :
    ((⟨some [0, 0, 0, 0, 0x63, 0x55, 0xe6, 0xee]⟩ : ABIParser).encode simpleAbi
      "takes_u32_returns_bool" ["10"] =
      (⟨some [0, 0, 0, 0, 0x63, 0x55, 0xe6, 0xee]⟩, .ok "000000000000000a")) ∧
    (∀ entry types, first_four_bytes_of_sha256_hash (resolve_fn_selector entry types) =
      first_four_bytes_of_sha256_hash (resolve_fn_selector entry types)) :=
  encode_twice_identical ABIParser.new ⟨some [0, 0, 0, 0, 0x63, 0x55, 0xe6, 0xee]⟩ simpleAbi
    "takes_u32_returns_bool" ["10"] "000000000000000a" (by decide)

/-- C10: calling `encode` with fewer values than the found function has
inputs raises no arity error: the inputs are paired with the values by
position (`zip`), so the pairing covers exactly the first
`values.length` inputs and the unmatched trailing inputs are silently
dropped — `encode` computes the very same outcome as it would with the
input list truncated to the first `values.length` entries. -/
theorem encode_trailing_inputs_dropped (st : ABIParser) (abi : ProgramABI) (fn : String)
    (vals : List String) (entry : ABIFunction)
    (h1 : abi.functions.find? (fun e => e.name == fn) = some entry)
    (h2 : vals.length ≤ entry.inputs.length) :
    st.encode abi fn vals = st.encode_using abi entry (entry.inputs.take vals.length) vals ∧
    (entry.inputs.zip vals).length = vals.length := by
  constructor
  · rw [encode_find_some st abi fn vals entry h1]
    exact encode_using_zip_eq st abi entry entry.inputs (entry.inputs.take vals.length) vals
      (zip_take_of_length_le entry.inputs vals h2).symm
  · rw [List.length_zip]
    exact Nat.min_eq_right h2

/-- C10 (witness): `takes_struct_and_primitive` has two inputs; called
with one value, `encode` behaves exactly as with only the first input. -/
theorem encode_trailing_inputs_dropped_witness :
    (ABIParser.new.encode structAndPrimAbi "takes_struct_and_primitive" ["(42, true)"] =
      ABIParser.new.encode_using structAndPrimAbi structAndPrimEntry
        (structAndPrimEntry.inputs.take 1) ["(42, true)"]) ∧
    (structAndPrimEntry.inputs.zip ["(42, true)"]).length = 1 :=
  encode_trailing_inputs_dropped ABIParser.new structAndPrimAbi "takes_struct_and_primitive"
    ["(42, true)"] structAndPrimEntry rfl (by decide)

end FuelsAbi
